import Mathlib

/-!
# Verification of the FindThisThread Reddit resolution engine

A shallow embedding of `src/reddit/search.ts` (the `RedditSearch` class:
`fetchReddit`, `findRedditPost`, the five search strategies, `extractKeywords`,
`findBestMatch`, `searchUserComments`, `sanitizeRedditName`) together with the
parts of its third-party dependencies that the engine's behaviour rests on
(the `string-similarity` Dice coefficient, JavaScript's `encodeURIComponent`).

Conventions of the embedding:
* JavaScript strings are modelled as `String`/`List Char`; character classes
  (`\w`, `\s`, `toLowerCase`) are modelled on the ASCII range, which is the
  range every claim is about (all non-ASCII characters are stripped by the
  `[^\w\s]` replace before they could influence a result).
* JavaScript numbers used for scores and delays are modelled as `ℚ`
  (every constant in the engine is a small decimal, so arithmetic is exact).
* `Date.now()` is the `now` field of the engine state; `await sleep(d)`
  advances `now` by `d`; an HTTP round trip itself takes no model time.
* The network is an environment inside the state: `pending` is the list of
  outcomes the fetch layer will observe, consumed one per round trip, and
  `tokenPending` the same for the OAuth token endpoint.  An exhausted
  environment behaves like a network error (`fetch` rejecting).
* `try/catch` in `fetchReddit`/`getAccessToken` catches every rejection of
  an *awaited* promise, and those paths are embedded as the value the
  `catch` clause produces.  The one promise the source does not await —
  `return response.json()` on a 2xx response — escapes the `catch` when the
  body fails to parse; the embedding records this as `Awaited.thrown`, which
  every caller propagates (the JS rejection aborts the whole resolution).
-/

/-! ## Characters: JS `\s`, `\w`, `toLowerCase` (ASCII model) -/

/-- JS whitespace class `\s`, restricted to ASCII: space, tab, LF, VT, FF, CR. -/
def jsSpace (c : Char) : Bool :=
  c == ' ' || c == '\t' || c == '\n' || c == '\r' || c.toNat == 11 || c.toNat == 12

/-- JS word-character class `\w` = `[A-Za-z0-9_]`. -/
def wordChar (c : Char) : Bool :=
  (65 ≤ c.toNat && c.toNat ≤ 90) || (97 ≤ c.toNat && c.toNat ≤ 122) ||
    (48 ≤ c.toNat && c.toNat ≤ 57) || c == '_'

/-- `String.prototype.toLowerCase`, one character (ASCII range). -/
def lowerChar (c : Char) : Char :=
  if 65 ≤ c.toNat ∧ c.toNat ≤ 90 then Char.ofNat (c.toNat + 32) else c

/-- `String.prototype.toLowerCase` on a character list. -/
def lowerL (l : List Char) : List Char := l.map lowerChar

theorem char_toNat_ofNat (n : Nat) (h : n < 55296) : (Char.ofNat n).toNat = n := by
  have hv : n.isValidChar := Or.inl h
  simp [Char.ofNat, hv, Char.ofNatAux, Char.toNat, UInt32.toNat]

theorem lowerChar_toNat_of_upper {c : Char} (h1 : 65 ≤ c.toNat) (h2 : c.toNat ≤ 90) :
    (lowerChar c).toNat = c.toNat + 32 := by
  unfold lowerChar
  rw [if_pos ⟨h1, h2⟩]
  exact char_toNat_ofNat _ (by omega)

/-- The image of `lowerChar` contains no ASCII uppercase letter. -/
theorem lowerChar_not_upper (c : Char) :
    ¬ (65 ≤ (lowerChar c).toNat ∧ (lowerChar c).toNat ≤ 90) := by
  by_cases h : 65 ≤ c.toNat ∧ c.toNat ≤ 90
  · rw [lowerChar_toNat_of_upper h.1 h.2]
    omega
  · unfold lowerChar
    rw [if_neg h]
    exact h

theorem lowerChar_of_not_upper {c : Char} (h : ¬ (65 ≤ c.toNat ∧ c.toNat ≤ 90)) :
    lowerChar c = c := by
  unfold lowerChar
  exact if_neg h

theorem lowerChar_idem (c : Char) : lowerChar (lowerChar c) = lowerChar c :=
  lowerChar_of_not_upper (lowerChar_not_upper c)

/-! ## `splitRuns`: JS `String.prototype.split(/\s+/)` -/

/-- Worker for `splitRuns`: `acc` is the current field (reversed), the `Bool`
says whether the previous character belonged to a whitespace run (so further
whitespace is absorbed into the same separator). -/
def splitRunsGo : List Char → List Char → Bool → List (List Char)
  | acc, [], _ => [acc.reverse]
  | acc, c :: rest, inRun =>
    if jsSpace c then
      if inRun then splitRunsGo acc rest true
      else acc.reverse :: splitRunsGo [] rest true
    else splitRunsGo (c :: acc) rest false

/-- JS `str.split(/\s+/)`: splits at maximal whitespace runs; a leading or
trailing run contributes an empty field, and `"".split(/\s+/) = [""]`. -/
def splitRuns (l : List Char) : List (List Char) := splitRunsGo [] l false

/-! ## `extractKeywords` (RedditSearch.extractKeywords) -/

/-- The stop-word set of `extractKeywords`, verbatim from the source. -/
def stopWords : List (List Char) :=
  ["a", "an", "the", "and", "or", "but", "in", "on", "at", "to", "for",
   "of", "with", "by", "is", "it", "this", "that", "was", "were", "be",
   "been", "being", "have", "has", "had", "do", "does", "did", "will",
   "would", "could", "should", "may", "might", "must", "shall", "can",
   "i", "me", "my", "we", "our", "you", "your", "he", "him", "his",
   "she", "her", "they", "them", "their", "what", "which", "who", "whom"].map String.data

/-- The replace `/[^\w\s]/g → ''` step: keep word characters and whitespace. -/
def stripPunct (l : List Char) : List Char := l.filter (fun c => wordChar c || jsSpace c)

/-- The token filter: `word.length > 2 && !stopWords.has(word)`. -/
def keywordOk (w : List Char) : Bool := decide (2 < w.length) && !(stopWords.contains w)

/-- `words.slice(0, 6).join(' ')`. -/
def joinSpace : List (List Char) → List Char
  | [] => []
  | t :: ts =>
    match ts with
    | [] => t
    | _ :: _ => t ++ ' ' :: joinSpace ts

theorem joinSpace_nil : joinSpace [] = [] := rfl

theorem joinSpace_single (t : List Char) : joinSpace [t] = t := rfl

theorem joinSpace_cons_cons (t u : List Char) (ts : List (List Char)) :
    joinSpace (t :: u :: ts) = t ++ ' ' :: joinSpace (u :: ts) := rfl

/-- The token list of `extractKeywords`: lowercase, strip punctuation, split on
whitespace, drop short and stop-word tokens, keep the first 6. -/
def keywordToks (l : List Char) : List (List Char) :=
  ((splitRuns (stripPunct (lowerL l))).filter keywordOk).take 6

def extractKeywordsL (l : List Char) : List Char := joinSpace (keywordToks l)

/-- `RedditSearch.extractKeywords`. -/
def extractKeywords (s : String) : String := ⟨extractKeywordsL s.data⟩

/-! ### Facts about `splitRuns` -/

theorem splitRunsGo_chars :
    ∀ (l acc : List Char) (inRun : Bool), ∀ t ∈ splitRunsGo acc l inRun, ∀ c ∈ t,
      c ∈ acc ∨ (c ∈ l ∧ jsSpace c = false) := by
  intro l
  induction l with
  | nil =>
    intro acc inRun t ht c hc
    simp only [splitRunsGo, List.mem_singleton] at ht
    subst ht
    exact Or.inl (List.mem_reverse.mp hc)
  | cons d rest ih =>
    intro acc inRun t ht c hc
    by_cases hd : jsSpace d = true
    · cases inRun with
      | true =>
        simp only [splitRunsGo, hd, if_true] at ht
        rcases ih acc true t ht c hc with h | h
        · exact Or.inl h
        · exact Or.inr ⟨List.mem_cons_of_mem _ h.1, h.2⟩
      | false =>
        simp only [splitRunsGo, hd, if_true] at ht
        rcases List.mem_cons.mp ht with h | h
        · subst h
          exact Or.inl (List.mem_reverse.mp hc)
        · rcases ih [] true t h c hc with h' | h'
          · simp at h'
          · exact Or.inr ⟨List.mem_cons_of_mem _ h'.1, h'.2⟩
    · simp only [splitRunsGo, hd, if_false] at ht
      rcases ih (d :: acc) false t ht c hc with h | h
      · rcases List.mem_cons.mp h with h' | h'
        · subst h'
          exact Or.inr ⟨List.mem_cons_self _ _, eq_false_of_ne_true hd⟩
        · exact Or.inl h'
      · exact Or.inr ⟨List.mem_cons_of_mem _ h.1, h.2⟩

theorem splitRuns_chars {l t : List Char} (ht : t ∈ splitRuns l) {c : Char} (hc : c ∈ t) :
    c ∈ l ∧ jsSpace c = false := by
  have h := splitRunsGo_chars l [] false t ht c hc
  simpa using h

theorem splitRunsGo_of_noSpace :
    ∀ (l acc : List Char) (inRun : Bool), (∀ c ∈ l, jsSpace c = false) →
      splitRunsGo acc l inRun = [acc.reverse ++ l] := by
  intro l
  induction l with
  | nil => intro acc inRun _; simp [splitRunsGo]
  | cons d rest ih =>
    intro acc inRun h
    have hd : jsSpace d = false := h d (List.mem_cons_self _ _)
    simp only [splitRunsGo, hd, Bool.false_eq_true, if_false]
    rw [ih (d :: acc) false (fun c hc => h c (List.mem_cons_of_mem _ hc))]
    simp

theorem splitRunsGo_append_space :
    ∀ (t acc rest : List Char), (∀ c ∈ t, jsSpace c = false) →
      splitRunsGo acc (t ++ ' ' :: rest) false =
        (acc.reverse ++ t) :: splitRunsGo [] rest true := by
  intro t
  induction t with
  | nil =>
    intro acc rest _
    simp [splitRunsGo, jsSpace]
  | cons d tcore ih =>
    intro acc rest h
    have hd : jsSpace d = false := h d (List.mem_cons_self _ _)
    simp only [List.cons_append, splitRunsGo, hd, Bool.false_eq_true, if_false,
      List.append_eq]
    rw [ih (d :: acc) rest (fun c hc => h c (List.mem_cons_of_mem _ hc))]
    simp

theorem splitRunsGo_true_cons {d : Char} (rest : List Char) (hd : jsSpace d = false) :
    splitRunsGo [] (d :: rest) true = splitRuns (d :: rest) := by
  simp only [splitRuns, splitRunsGo, hd, Bool.false_eq_true, if_false]

theorem splitRuns_joinSpace :
    ∀ (ts : List (List Char)), ts ≠ [] →
      (∀ t ∈ ts, t ≠ [] ∧ ∀ c ∈ t, jsSpace c = false) →
      splitRuns (joinSpace ts) = ts := by
  intro ts
  induction ts with
  | nil => intro h; exact absurd rfl h
  | cons t ts' ih =>
    intro _ h
    have ht := h t (List.mem_cons_self _ _)
    cases ts' with
    | nil =>
      show splitRunsGo [] (joinSpace [t]) false = [t]
      rw [joinSpace_single]
      rw [splitRunsGo_of_noSpace t [] false ht.2]
      simp
    | cons t' ts'' =>
      show splitRunsGo [] (joinSpace (t :: t' :: ts'')) false = t :: t' :: ts''
      rw [joinSpace_cons_cons]
      rw [splitRunsGo_append_space t [] _ ht.2]
      have ht' := h t' (List.mem_cons_of_mem _ (List.mem_cons_self _ _))
      obtain ⟨d, t'core, ht'1⟩ : ∃ d tc, t' = d :: tc := by
        cases t' with
        | nil => exact absurd rfl ht'.1
        | cons d tc => exact ⟨d, tc, rfl⟩
      subst ht'1
      have hd : jsSpace d = false := ht'.2 d (List.mem_cons_self _ _)
      obtain ⟨X, hX⟩ : ∃ X, joinSpace ((d :: t'core) :: ts'') = d :: X := by
        cases ts'' with
        | nil => exact ⟨t'core, by rw [joinSpace_single]⟩
        | cons u us => exact ⟨t'core ++ ' ' :: joinSpace (u :: us), by rw [joinSpace_cons_cons]; rfl⟩
      rw [hX, splitRunsGo_true_cons _ hd, ← hX]
      have hrec := ih (by simp) (fun u hu => h u (List.mem_cons_of_mem _ hu))
      rw [hrec]
      simp

/-! ### Idempotency of `extractKeywords` -/

theorem keywordOk_length {w : List Char} (h : keywordOk w = true) : 2 < w.length := by
  unfold keywordOk at h
  exact of_decide_eq_true (Bool.and_eq_true_iff.mp h).1

theorem keywordToks_ok {l t : List Char} (ht : t ∈ keywordToks l) : keywordOk t = true := by
  unfold keywordToks at ht
  exact (List.mem_filter.mp (List.take_subset _ _ ht)).2

theorem keywordToks_chars {l t : List Char} (ht : t ∈ keywordToks l) {c : Char} (hc : c ∈ t) :
    jsSpace c = false ∧ wordChar c = true ∧ lowerChar c = c := by
  unfold keywordToks at ht
  have hmem := (List.mem_filter.mp (List.take_subset _ _ ht)).1
  have h1 := splitRuns_chars hmem hc
  have h2 := List.mem_filter.mp h1.1
  refine ⟨h1.2, ?_, ?_⟩
  · rcases Bool.or_eq_true_iff.mp h2.2 with h | h
    · exact h
    · rw [h1.2] at h
      exact absurd h (by simp)
  · obtain ⟨c₀, _, rfl⟩ := List.mem_map.mp h2.1
    exact lowerChar_idem c₀

theorem keywordToks_length_le (l : List Char) : (keywordToks l).length ≤ 6 :=
  List.length_take_le _ _

theorem mem_joinSpace :
    ∀ (ts : List (List Char)) (c : Char), c ∈ joinSpace ts → (∃ t ∈ ts, c ∈ t) ∨ c = ' ' := by
  intro ts
  induction ts with
  | nil => intro c hc; simp [joinSpace_nil] at hc
  | cons t ts' ih =>
    intro c hc
    cases ts' with
    | nil =>
      rw [joinSpace_single] at hc
      exact Or.inl ⟨t, List.mem_cons_self _ _, hc⟩
    | cons u us =>
      rw [joinSpace_cons_cons] at hc
      rcases List.mem_append.mp hc with h | h
      · exact Or.inl ⟨t, List.mem_cons_self _ _, h⟩
      · rcases List.mem_cons.mp h with h' | h'
        · exact Or.inr h'
        · rcases ih c h' with ⟨t', ht', hct'⟩ | h''
          · exact Or.inl ⟨t', List.mem_cons_of_mem _ ht', hct'⟩
          · exact Or.inr h''

theorem keywordToks_joinSpace {ts : List (List Char)}
    (hok : ∀ t ∈ ts, keywordOk t = true)
    (hchar : ∀ t ∈ ts, ∀ c ∈ t, jsSpace c = false ∧ wordChar c = true ∧ lowerChar c = c)
    (hlen : ts.length ≤ 6) :
    keywordToks (joinSpace ts) = ts := by
  have hlow : lowerL (joinSpace ts) = joinSpace ts := by
    unfold lowerL
    have h : ∀ c ∈ joinSpace ts, lowerChar c = id c := by
      intro c hc
      rcases mem_joinSpace ts c hc with ⟨t, ht, hct⟩ | rfl
      · exact (hchar t ht c hct).2.2
      · exact lowerChar_of_not_upper (by decide)
    rw [List.map_congr_left h, List.map_id]
  have hstrip : stripPunct (joinSpace ts) = joinSpace ts := by
    unfold stripPunct
    apply List.filter_eq_self.mpr
    intro c hc
    rcases mem_joinSpace ts c hc with ⟨t, ht, hct⟩ | rfl
    · rw [(hchar t ht c hct).2.1]
      simp
    · decide
  unfold keywordToks
  rw [hlow, hstrip]
  by_cases hne : ts = []
  · subst hne
    rfl
  · rw [splitRuns_joinSpace ts hne (fun t ht =>
      ⟨List.length_pos.mp (by have := keywordOk_length (hok t ht); omega),
       fun c hc => (hchar t ht c hc).1⟩)]
    rw [List.filter_eq_self.mpr hok]
    exact List.take_of_length_le hlen

theorem extractKeywordsL_idem (l : List Char) :
    extractKeywordsL (extractKeywordsL l) = extractKeywordsL l := by
  show joinSpace (keywordToks (joinSpace (keywordToks l))) = joinSpace (keywordToks l)
  rw [keywordToks_joinSpace (fun t ht => keywordToks_ok ht)
    (fun t ht c hc => keywordToks_chars ht hc) (keywordToks_length_le l)]

theorem extractKeywords_idem (s : String) :
    extractKeywords (extractKeywords s) = extractKeywords s :=
  congrArg String.mk (extractKeywordsL_idem s.data)

/-! ## `string-similarity`: `compareTwoStrings` (Dice coefficient on bigrams) -/

/-- The list of adjacent character pairs (`first.substring(i, i + 2)`). -/
def bigrams : List Char → List (Char × Char)
  | a :: rest =>
    match rest with
    | [] => []
    | b :: _ => (a, b) :: bigrams rest
  | [] => []

/-- The intersection count of the `compareTwoStrings` loop: walk the second
string's bigrams, consuming one matching occurrence from the first string's
bigram multiset per hit. -/
def countMatches : List (Char × Char) → List (Char × Char) → Nat
  | [], _ => 0
  | b :: bs, pool =>
    if b ∈ pool then countMatches bs (pool.erase b) + 1 else countMatches bs pool

/-- `compareTwoStrings` from the `string-similarity` package: strip all
whitespace, return 1 on equality, 0 if either remainder is shorter than 2,
otherwise the Dice coefficient `2·|bigram intersection| / (|f| + |s| - 2)`. -/
def stripWs (l : List Char) : List Char := l.filter (fun c => !jsSpace c)

def compareL (first second : List Char) : ℚ :=
  if stripWs first = stripWs second then 1
  else if (stripWs first).length < 2 ∨ (stripWs second).length < 2 then 0
  else ((2 * countMatches (bigrams (stripWs second)) (bigrams (stripWs first)) : ℕ) : ℚ) /
    (((stripWs first).length + (stripWs second).length - 2 : ℕ) : ℚ)

def compareTwoStrings (a b : String) : ℚ := compareL a.data b.data

theorem length_bigrams : ∀ l : List Char, (bigrams l).length = l.length - 1 := by
  intro l
  induction l with
  | nil => rfl
  | cons a rest ih =>
    cases rest with
    | nil => rfl
    | cons b tail =>
      simp only [bigrams, List.length_cons] at ih ⊢
      omega

theorem countMatches_le_left :
    ∀ (bs pool : List (Char × Char)), countMatches bs pool ≤ bs.length := by
  intro bs
  induction bs with
  | nil => intro pool; simp [countMatches]
  | cons b rest ih =>
    intro pool
    simp only [countMatches, List.length_cons]
    split
    · exact Nat.succ_le_succ (ih _)
    · exact Nat.le_succ_of_le (ih _)

theorem countMatches_le_right :
    ∀ (bs pool : List (Char × Char)), countMatches bs pool ≤ pool.length := by
  intro bs
  induction bs with
  | nil => intro pool; simp [countMatches]
  | cons b rest ih =>
    intro pool
    simp only [countMatches]
    split
    · rename_i hmem
      have h1 := ih (pool.erase b)
      have h2 : (pool.erase b).length = pool.length - 1 := List.length_erase_of_mem hmem
      have h3 : 0 < pool.length := List.length_pos.mpr (List.ne_nil_of_mem hmem)
      omega
    · exact ih pool

theorem compareL_nonneg (a b : List Char) : 0 ≤ compareL a b := by
  unfold compareL
  split
  · norm_num
  · split
    · norm_num
    · positivity

theorem compareL_le_one (a b : List Char) : compareL a b ≤ 1 := by
  unfold compareL
  split
  · norm_num
  · split
    · norm_num
    · rename_i hne hlen
      push_neg at hlen
      have hI1 : countMatches (bigrams (stripWs b)) (bigrams (stripWs a)) ≤
          (stripWs b).length - 1 := by
        have h := countMatches_le_left (bigrams (stripWs b)) (bigrams (stripWs a))
        rwa [length_bigrams] at h
      have hI2 : countMatches (bigrams (stripWs b)) (bigrams (stripWs a)) ≤
          (stripWs a).length - 1 := by
        have h := countMatches_le_right (bigrams (stripWs b)) (bigrams (stripWs a))
        rwa [length_bigrams] at h
      have hnum : 2 * countMatches (bigrams (stripWs b)) (bigrams (stripWs a)) ≤
          (stripWs a).length + (stripWs b).length - 2 := by
        omega
      have hpos : (0 : ℚ) < (((stripWs a).length + (stripWs b).length - 2 : ℕ) : ℚ) := by
        have h2 : 2 ≤ (stripWs a).length + (stripWs b).length - 2 := by omega
        exact_mod_cast Nat.lt_of_lt_of_le (by norm_num) h2
      rw [div_le_one hpos]
      exact_mod_cast hnum

/-! ## `sanitizeRedditName` and JS `encodeURIComponent` -/

/-- The charset kept by `sanitizeRedditName`: `[a-zA-Z0-9_-]`. -/
def nameAllowed (c : Char) : Bool :=
  (65 ≤ c.toNat && c.toNat ≤ 90) || (97 ≤ c.toNat && c.toNat ≤ 122) ||
    (48 ≤ c.toNat && c.toNat ≤ 57) || c == '_' || c == '-'

/-- `sanitizeRedditName`: `name.replace(/[^a-zA-Z0-9_-]/g, '').substring(0, 25)`. -/
def sanitizeRedditName (s : String) : String := ⟨(s.data.filter nameAllowed).take 25⟩

/-- The characters `encodeURIComponent` leaves unescaped:
`A-Z a-z 0-9 - _ . ! ~ * ' ( )` (39 is the apostrophe). -/
def uriUnreserved (c : Char) : Bool :=
  (65 ≤ c.toNat && c.toNat ≤ 90) || (97 ≤ c.toNat && c.toNat ≤ 122) ||
    (48 ≤ c.toNat && c.toNat ≤ 57) || c == '-' || c == '_' || c == '.' ||
    c == '!' || c == '~' || c == '*' || c.toNat == 39 || c == '(' || c == ')'

def hexDigitChar (n : Nat) : Char :=
  if n < 10 then Char.ofNat (48 + n) else Char.ofNat (55 + n)

/-- UTF-8 encoding of one Unicode scalar value. -/
def utf8Bytes (c : Char) : List Nat :=
  if c.toNat < 128 then [c.toNat]
  else if c.toNat < 2048 then [192 + c.toNat / 64, 128 + c.toNat % 64]
  else if c.toNat < 65536 then
    [224 + c.toNat / 4096, 128 + (c.toNat / 64) % 64, 128 + c.toNat % 64]
  else
    [240 + c.toNat / 262144, 128 + (c.toNat / 4096) % 64, 128 + (c.toNat / 64) % 64,
      128 + c.toNat % 64]

def pctEncode (b : Nat) : List Char := ['%', hexDigitChar (b / 16), hexDigitChar (b % 16)]

def encodeURIComponentL (l : List Char) : List Char :=
  l.flatMap (fun c => if uriUnreserved c then [c] else (utf8Bytes c).flatMap pctEncode)

/-- JS `encodeURIComponent`. -/
def encodeURIComponent (s : String) : String := ⟨encodeURIComponentL s.data⟩

/-! ## Data model (`reddit/types.ts`, `vision/types.ts`) -/

/-- `RedditPost` from `reddit/types.ts`. -/
structure RedditPost where
  id : String
  title : String
  author : String
  subreddit : String
  permalink : String
  selftext : Option String
  created_utc : Nat
deriving Repr, DecidableEq

/-- `RedditComment` from `reddit/types.ts`. -/
structure RedditComment where
  id : String
  body : String
  author : String
  subreddit : String
  permalink : String
  link_title : String
  created_utc : Nat
deriving Repr, DecidableEq

/-- One element of `response.data.children` for a search response. -/
structure SearchChild where
  kind : String
  data : RedditPost
deriving Repr, DecidableEq

/-- One element of `response.data.children` for a user-comments response. -/
structure CommentChild where
  kind : String
  data : RedditComment
deriving Repr, DecidableEq

/-- A parsed JSON body as the engine reads it: either a post listing
(`RedditSearchResponse`) or a comment listing with an `after` cursor
(`RedditUserCommentsResponse`).  A body of the wrong shape at a call site
behaves like a listing without children (the optional chaining
`response?.data?.children?.length` comes out falsy). -/
inductive JsonBody where
  | searchListing (children : List SearchChild)
  | commentListing (children : List CommentChild) (after : Option String)
deriving Repr, DecidableEq

/-- The vision extractor's confidence label (not read by the engine). -/
inductive Confidence where
  | high
  | medium
  | low
deriving Repr, DecidableEq

/-- `RedditPostInfo` from `vision/types.ts`. -/
structure RedditPostInfo where
  subreddit : Option String
  username : Option String
  title : Option String
  bodySnippet : Option String
  timestamp : Option String := none
  confidence : Confidence := .medium
  error : Option String := none
deriving Repr, DecidableEq

/-- `RedditSearchResult` from `reddit/types.ts`; `isComment` and `error` are
optional in TS (absent ↦ `false` / `none`). -/
structure RedditSearchResult where
  url : String
  title : String
  author : String
  subreddit : String
  matchConfidence : ℚ
  isComment : Bool := false
  error : Option String := none
deriving Repr, DecidableEq

/-- JS truthiness of a nullable string: `null`, `undefined` and `""` are falsy. -/
def truthy : Option String → Bool
  | none => false
  | some s => !(s == "")

/-- JS `a || ''` for a nullable string. -/
def orEmpty (o : Option String) : String := if truthy o then o.getD "" else ""

/-- JS `a || b || ''` for nullable strings. -/
def jsOr2 (a b : Option String) : String := if truthy a then a.getD "" else orEmpty b

/-! ## The rate-limited fetcher (`fetchReddit`, `getAccessToken`) -/

/-- The observable outcome of awaiting one of the engine's async methods:
the promise either resolved to a value or rejected with an uncaught
exception (which JS propagates to the awaiting caller). -/
inductive Awaited (α : Type) where
  | thrown
  | returned (val : α)
deriving Repr, DecidableEq

/-- Outcome of one HTTP round trip, supplied by the environment.
`response status none` with a 2xx status is a response whose body fails to
parse as JSON (`response.json()` rejects). -/
inductive FetchResult where
  | networkError
  | response (status : Nat) (body : Option JsonBody)
deriving Repr, DecidableEq

def BASE_DELAY_MS : ℚ := 1000
def UNAUTH_DELAY_MS : ℚ := 6000

/-- The mutable state of a `RedditSearch` instance, together with the model
clock (`now`) and the network environment (`pending`, `tokenPending`;
`tokenPending` entries are `some expiresInSeconds` for a successful token
exchange and `none` for a failed one). -/
structure SearchState where
  lastRequestTime : ℚ
  currentDelay : ℚ
  rateLimitedUntil : ℚ
  lastFetchStatus : Nat
  hasCreds : Bool
  accessToken : Bool
  tokenExpiresAt : ℚ
  now : ℚ
  pending : List FetchResult
  tokenPending : List (Option ℚ)
deriving Repr, DecidableEq

/-- `RedditSearch.isRateLimited`. -/
def isRateLimited (st : SearchState) : Bool := decide (st.now < st.rateLimitedUntil)

/-- `RedditSearch.wasNotFound`. -/
def wasNotFound (st : SearchState) : Bool := st.lastFetchStatus == 404

/-- `RedditSearch.getAccessToken`: no credentials ⇒ `null`; a cached token
still valid (60 s buffer) is reused; otherwise one token-endpoint round trip
happens, and on any failure (non-ok response or network error) the method
returns `null` while keeping the previously stored token string. -/
def getAccessToken (st : SearchState) : Bool × SearchState :=
  if !st.hasCreds then (false, st)
  else if st.accessToken ∧ st.now < st.tokenExpiresAt - 60000 then (true, st)
  else
    match st.tokenPending with
    | [] => (false, st)
    | outcome :: rest =>
      match outcome with
      | none => (false, { st with tokenPending := rest })
      | some expiresIn =>
        (true, { st with tokenPending := rest, accessToken := true,
                         tokenExpiresAt := st.now + expiresIn * 1000 })

/-- The pacing block of `fetchReddit`: sleep until the minimum delay between
requests has elapsed, then record `lastRequestTime = Date.now()`. -/
def pacedState (st : SearchState) : SearchState :=
  let stW :=
    if st.now - st.lastRequestTime < st.currentDelay then
      { st with now := st.now + (st.currentDelay - (st.now - st.lastRequestTime)) }
    else st
  { stW with lastRequestTime := stW.now }

/-- The response handling of `fetchReddit`, applied to the state after the
round trip (response consumed from `pending`): record the status, back off
exponentially on 429, decay the delay otherwise, and return `null` for
non-ok statuses.  On a 2xx response the source ends with
`return response.json()` *without* `await`, so a body that fails to parse
rejects `fetchReddit`'s promise past its `catch` clause: that path is
`thrown`, and the state keeps the 2xx `lastFetchStatus` because the catch
(which would set it to 0) never runs. -/
def handleOutcome (outcome : FetchResult) (st : SearchState) :
    Awaited (Option JsonBody) × SearchState :=
  match outcome with
  | .networkError => (.returned none, { st with lastFetchStatus := 0 })
  | .response status body =>
    let st5 := { st with lastFetchStatus := status }
    -- Handle rate limiting with exponential backoff
    if status = 429 then
      (.returned none, { st5 with currentDelay := min (st5.currentDelay * 2) 60000,
                                  rateLimitedUntil := st5.now + 60000 })
    else
      -- Success - gradually reduce delay back to base
      let baseDelay : ℚ := if st5.accessToken then BASE_DELAY_MS else UNAUTH_DELAY_MS
      let st6 :=
        if baseDelay < st5.currentDelay then
          { st5 with currentDelay := max baseDelay (st5.currentDelay * 0.8) }
        else st5
      if !(200 ≤ status ∧ status < 300 : Bool) then (.returned none, st6)
      else
        match body with
        | none => (.thrown, st6)
        | some b => (.returned (some b), st6)

/-- `RedditSearch.fetchReddit`.  The `url` argument only selects the request
target (which the environment models), so it does not influence the result.
The source's OAuth URL rewrite and headers are target selection as well and
are therefore not modelled beyond the token state effects. -/
def fetchReddit (url : String) (st : SearchState) :
    Awaited (Option JsonBody) × SearchState :=
  -- If we're in rate limit cooldown, skip entirely
  if st.now < st.rateLimitedUntil then
    (.returned none, { st with lastFetchStatus := 429 })
  else
    -- Rate limiting: ensure minimum delay between requests (async sleep)
    let st2 := pacedState st
    let st3 := (getAccessToken st2).2
    match st3.pending with
    | [] => (.returned none, { st3 with lastFetchStatus := 0 })
    | outcome :: rest => handleOutcome outcome { st3 with pending := rest }

/-! ## Text normalization used by the scorer -/

/-- Worker for `collapseWs`: JS `replace(/\s+/g, ' ')`. -/
def collapseWsGo : List Char → Bool → List Char
  | [], _ => []
  | c :: rest, inRun =>
    if jsSpace c then
      if inRun then collapseWsGo rest true
      else ' ' :: collapseWsGo rest true
    else c :: collapseWsGo rest false

def collapseWs (l : List Char) : List Char := collapseWsGo l false

/-- JS `trim()`: drop whitespace from both ends. -/
def trimL (l : List Char) : List Char :=
  ((l.dropWhile jsSpace).reverse.dropWhile jsSpace).reverse

def lowerS (s : String) : String := ⟨lowerL s.data⟩

/-- JS `substring(0, n)`. -/
def takeS (n : Nat) (s : String) : String := ⟨s.data.take n⟩

/-- JS `substring(a, b)` for `a ≤ b`. -/
def substrS (a b : Nat) (s : String) : String := ⟨(s.data.drop a).take (b - a)⟩

def trimS (s : String) : String := ⟨trimL s.data⟩

/-- `x.toLowerCase().replace(/\s+/g, ' ').trim()` — the normalization applied
to the query snippet and each comment body in `searchUserComments`. -/
def normalizeSnippet (s : String) : String := ⟨trimL (collapseWs (lowerL s.data))⟩

/-- `hay.startsWith(needle)` on character lists. -/
def startsWithL : List Char → List Char → Bool
  | _, [] => true
  | [], _ :: _ => false
  | h :: hs, n :: ns => h == n && startsWithL hs ns

/-- `hay.includes(needle)` on character lists (needle first). -/
def containsL (needle : List Char) : List Char → Bool
  | [] => decide (needle = [])
  | c :: rest => startsWithL (c :: rest) needle || containsL needle rest

/-- JS `hay.includes(needle)`. -/
def containsS (hay needle : String) : Bool := containsL needle.data hay.data

/-! ## `findBestMatch` (the post scorer) -/

/-- The generic username placeholders `['redacted', 'deleted', '[deleted]', 'unknown']`. -/
def genericUsernames : List String := ["redacted", "deleted", "[deleted]", "unknown"]

/-- Title similarity (60 % weight, +0.15 exact-title bonus above 0.9). -/
def titleTerm (info : RedditPostInfo) (post : RedditPost) : ℚ :=
  if truthy info.title && !(post.title == "") then
    let ts := compareTwoStrings (lowerS (info.title.getD "")) (lowerS post.title)
    ts * 0.6 + (if 0.9 < ts then 0.15 else 0)
  else 0

/-- Author similarity (20 % weight), skipped for generic placeholder usernames. -/
def authorTerm (info : RedditPostInfo) (post : RedditPost) : ℚ :=
  if truthy info.username && !(post.author == "") &&
      !(genericUsernames.contains (lowerS (info.username.getD ""))) then
    compareTwoStrings (lowerS (info.username.getD "")) (lowerS post.author) * 0.2
  else 0

/-- Subreddit similarity (20 % weight). -/
def subredditTerm (info : RedditPostInfo) (post : RedditPost) : ℚ :=
  if truthy info.subreddit && !(post.subreddit == "") then
    compareTwoStrings (lowerS (info.subreddit.getD "")) (lowerS post.subreddit) * 0.2
  else 0

/-- Body-snippet bonus (+0.1 when keyword similarity exceeds 0.5). -/
def bodyTerm (info : RedditPostInfo) (post : RedditPost) : ℚ :=
  if truthy info.bodySnippet && truthy post.selftext then
    if !(extractKeywords (info.bodySnippet.getD "") == "") &&
        !(extractKeywords (takeS 200 (post.selftext.getD "")) == "") &&
        decide (0.5 < compareTwoStrings (extractKeywords (info.bodySnippet.getD ""))
          (extractKeywords (takeS 200 (post.selftext.getD "")))) then 0.1
    else 0
  else 0

/-- The raw (uncapped) score one candidate post receives in `findBestMatch`:
the `score += …` contributions are independent, so their sum is the loop's
final `score`. -/
def scorePost (info : RedditPostInfo) (post : RedditPost) : ℚ :=
  titleTerm info post + authorTerm info post + subredditTerm info post + bodyTerm info post

/-- The `RedditSearchResult` built for a new best post (`Math.min(score, 1)`). -/
def postResult (post : RedditPost) (score : ℚ) : RedditSearchResult :=
  { url := "https://www.reddit.com" ++ post.permalink
    title := post.title
    author := post.author
    subreddit := post.subreddit
    matchConfidence := min score 1 }

def findBestMatchGo (info : RedditPostInfo) :
    List RedditPost → Option RedditSearchResult → ℚ → Option RedditSearchResult
  | [], best, _ => best
  | p :: ps, best, bestScore =>
    if bestScore < scorePost info p then
      findBestMatchGo info ps (some (postResult p (scorePost info p))) (scorePost info p)
    else findBestMatchGo info ps best bestScore

/-- `RedditSearch.findBestMatch` (`bestScore` starts at 0, strict improvement). -/
def findBestMatch (posts : List RedditPost) (info : RedditPostInfo) :
    Option RedditSearchResult :=
  findBestMatchGo info posts none 0

/-! ## Request URLs of the strategies -/

def REDDIT_BASE : String := "https://www.reddit.com"

def exactTitleUrl (title : String) : String :=
  REDDIT_BASE ++ "/search.json?q=" ++ encodeURIComponent ("\"" ++ title ++ "\"") ++
    "&sort=relevance&limit=25"

def titleInSubredditUrl (subreddit keywords : String) : String :=
  REDDIT_BASE ++ "/r/" ++ sanitizeRedditName subreddit ++ "/search.json?q=" ++
    encodeURIComponent keywords ++ "&restrict_sr=on&sort=relevance&limit=25"

def authorInSubredditUrl (subreddit username : String) : String :=
  REDDIT_BASE ++ "/r/" ++ sanitizeRedditName subreddit ++ "/search.json?q=author:" ++
    encodeURIComponent (sanitizeRedditName username) ++ "&restrict_sr=on&sort=new&limit=25"

def globalWithAuthorUrl (keywords username : String) : String :=
  REDDIT_BASE ++ "/search.json?q=" ++ encodeURIComponent keywords ++ "+author:" ++
    encodeURIComponent (sanitizeRedditName username) ++ "&sort=relevance&limit=25"

def userCommentsUrl (username : String) (after : Option String) : String :=
  REDDIT_BASE ++ "/user/" ++ sanitizeRedditName username ++
    "/comments.json?sort=new&limit=100" ++
    (if truthy after then "&after=" ++ encodeURIComponent (after.getD "") else "")

/-! ## The four post-listing strategies -/

/-- `RedditSearch.searchExactTitle`.  A thrown fetch propagates: the `await`
in the source rethrows the rejection out of the strategy. -/
def searchExactTitle (info : RedditPostInfo) (st : SearchState) :
    Awaited (Option RedditSearchResult) × SearchState :=
  if !truthy info.title then (.returned none, st)
  else
    match fetchReddit (exactTitleUrl (info.title.getD "")) st with
    | (.thrown, st') => (.thrown, st')
    | (.returned (some (.searchListing children)), st') =>
      if children.isEmpty then (.returned none, st')
      else (.returned (findBestMatch (children.map (fun c => c.data)) info), st')
    | (.returned _, st') => (.returned none, st')

/-- `RedditSearch.searchByTitleInSubreddit` (thrown fetches propagate). -/
def searchByTitleInSubreddit (info : RedditPostInfo) (st : SearchState) :
    Awaited (Option RedditSearchResult) × SearchState :=
  if !(truthy info.subreddit && truthy info.title) then (.returned none, st)
  else
    let keywords := extractKeywords (info.title.getD "")
    if keywords == "" then (.returned none, st)
    else
      match fetchReddit (titleInSubredditUrl (info.subreddit.getD "") keywords) st with
      | (.thrown, st') => (.thrown, st')
      | (.returned (some (.searchListing children)), st') =>
        if children.isEmpty then (.returned none, st')
        else (.returned (findBestMatch (children.map (fun c => c.data)) info), st')
      | (.returned _, st') => (.returned none, st')

/-- `RedditSearch.searchByAuthorInSubreddit` (thrown fetches propagate). -/
def searchByAuthorInSubreddit (info : RedditPostInfo) (st : SearchState) :
    Awaited (Option RedditSearchResult) × SearchState :=
  if !(truthy info.subreddit && truthy info.username) then (.returned none, st)
  else
    match fetchReddit
        (authorInSubredditUrl (info.subreddit.getD "") (info.username.getD "")) st with
    | (.thrown, st') => (.thrown, st')
    | (.returned (some (.searchListing children)), st') =>
      if children.isEmpty then (.returned none, st')
      else (.returned (findBestMatch (children.map (fun c => c.data)) info), st')
    | (.returned _, st') => (.returned none, st')

/-- `RedditSearch.searchGlobal` (thrown fetches propagate). -/
def searchGlobal (info : RedditPostInfo) (st : SearchState) :
    Awaited (Option RedditSearchResult) × SearchState :=
  if !(truthy info.title && truthy info.username) then (.returned none, st)
  else
    let keywords := extractKeywords (info.title.getD "")
    if keywords == "" then (.returned none, st)
    else
      match fetchReddit (globalWithAuthorUrl keywords (info.username.getD "")) st with
      | (.thrown, st') => (.thrown, st')
      | (.returned (some (.searchListing children)), st') =>
        if children.isEmpty then (.returned none, st')
        else (.returned (findBestMatch (children.map (fun c => c.data)) info), st')
      | (.returned _, st') => (.returned none, st')

/-! ## `searchUserComments` (the user-comment-history strategy) -/

/-- The `user_not_found` failure result built by `searchUserComments`. -/
def userNotFoundResult (username : String) : RedditSearchResult :=
  { url := ""
    title := ""
    author := username
    subreddit := ""
    matchConfidence := 0
    error := some "user_not_found" }

def maxPages : Nat := 5

/-- The pagination loop of `searchUserComments`: up to `maxPages` pages,
stopping on rate limit, on a missing user (404 → flag `true`), on an empty or
unusable page, or on a falsy `after` cursor.  A thrown fetch propagates
(the `await` in the loop rethrows it out of `searchUserComments`). -/
def fetchPagesGo (username : String) :
    Nat → Option String → List CommentChild → SearchState →
      Awaited (List CommentChild × Bool) × SearchState
  | 0, _, acc, st => (.returned (acc, false), st)
  | fuel + 1, after, acc, st =>
    if isRateLimited st then (.returned (acc, false), st)
    else
      match fetchReddit (userCommentsUrl username after) st with
      | (.thrown, st') => (.thrown, st')
      | (.returned none, st') =>
        if wasNotFound st' then (.returned (acc, true), st')
        else (.returned (acc, false), st')
      | (.returned (some (.commentListing children aft)), st') =>
        if children.isEmpty then (.returned (acc, false), st')
        else
          if truthy aft then fetchPagesGo username fuel aft (acc ++ children) st'
          else (.returned (acc ++ children, false), st')
      | (.returned (some _), st') => (.returned (acc, false), st')

/-- The normalized query snippet `(info.bodySnippet || info.title || '')
.toLowerCase().replace(/\s+/g, ' ').trim()`. -/
def rawSnippetOf (info : RedditPostInfo) : String :=
  normalizeSnippet (jsOr2 info.bodySnippet info.title)

/-- The acceptance threshold: 0.2 for snippets shorter than 80 characters,
0.3 otherwise. -/
def commentThreshold (info : RedditPostInfo) : ℚ :=
  if (rawSnippetOf info).length < 80 then 0.2 else 0.3

/-- The `RedditSearchResult` built for a matching comment
(`Math.min(score + 0.2, 1)`, user-matched confidence boost). -/
def commentResult (comment : RedditComment) (score : ℚ) : RedditSearchResult :=
  { url := "https://www.reddit.com" ++ comment.permalink ++ "?context=3"
    title := "Comment on: " ++ comment.link_title
    author := comment.author
    subreddit := comment.subreddit
    matchConfidence := min (score + 0.2) 1
    isComment := true }

/-- The literal-containment check of the comment loop: a 50-character prefix
of the snippet (truncated 5 short of its end) or, failing that, a trimmed
mid-snippet phrase (`substring(10, 50)`) found verbatim in the comment body. -/
def containsCheck (rawSnippet commentBody : String) : Bool :=
  let containsMatch1 : Bool :=
    if 10 < min 50 ((rawSnippet.length : Int) - 5) then
      containsS commentBody (takeS (min 50 ((rawSnippet.length : Int) - 5)).toNat rawSnippet)
    else false
  if !containsMatch1 && decide (30 < rawSnippet.length) then
    if 15 < (trimS (substrS 10 50 rawSnippet)).length then
      containsS commentBody (trimS (substrS 10 50 rawSnippet))
    else false
  else containsMatch1

/-- The raw score one comment receives: the max of keyword similarity, direct
150-character similarity, and the 0.5 containment bonus
(`Math.max(textSimilarity, directSimilarity, containsBonus)`). -/
def commentScoreOf (searchKeywords rawSnippet : String) (comment : RedditComment) : ℚ :=
  max
    (max (compareTwoStrings (lowerS searchKeywords)
            (lowerS (extractKeywords (takeS 300 comment.body))))
      (compareTwoStrings (takeS 150 rawSnippet) (takeS 150 (normalizeSnippet comment.body))))
    (if containsCheck rawSnippet (normalizeSnippet comment.body) then (0.5 : ℚ) else 0)

/-- The body of the comment-scanning loop in `searchUserComments`; `acc` is
the pair (best match so far, best accepted score so far). -/
def commentStep (threshold : ℚ) (searchKeywords rawSnippet : String)
    (acc : Option RedditSearchResult × ℚ) (child : CommentChild) :
    Option RedditSearchResult × ℚ :=
  if !(child.kind == "t1") then acc
  else if extractKeywords (takeS 300 child.data.body) == "" || searchKeywords == "" then acc
  else if acc.2 < commentScoreOf searchKeywords rawSnippet child.data ∧
      threshold < commentScoreOf searchKeywords rawSnippet child.data then
    (some (commentResult child.data (commentScoreOf searchKeywords rawSnippet child.data)),
      commentScoreOf searchKeywords rawSnippet child.data)
  else acc

/-- `RedditSearch.searchUserComments` (a thrown page fetch propagates). -/
def searchUserComments (info : RedditPostInfo) (st : SearchState) :
    Awaited (Option RedditSearchResult) × SearchState :=
  if !truthy info.username || genericUsernames.contains (lowerS (info.username.getD "")) then
    (.returned none, st)
  else
    let username := info.username.getD ""
    match fetchPagesGo username maxPages none [] st with
    | (.thrown, st') => (.thrown, st')
    | (.returned (allComments, userNotFound), st') =>
      if userNotFound then (.returned (some (userNotFoundResult username)), st')
      else if allComments.isEmpty then (.returned none, st')
      else
        let searchText := orEmpty info.title ++ " " ++ orEmpty info.bodySnippet
        let searchKeywords := extractKeywords searchText
        (.returned (allComments.foldl
            (commentStep (commentThreshold info) searchKeywords (rawSnippetOf info))
            (none, 0)).1,
          st')

/-! ## `findRedditPost` (the strategy runner) -/

/-- One search strategy as run by the driver loop. -/
def Strategy : Type := SearchState → Awaited (Option RedditSearchResult) × SearchState

/-- The final decision after the loop: return the best result iff its
confidence reaches 0.4, else `null`. -/
def finalDecision (best : Option RedditSearchResult) : Option RedditSearchResult :=
  match best with
  | some b => if 0.4 ≤ b.matchConfidence then some b else none
  | none => none

/-- `bestResult` update: keep the strictly better confidence. -/
def updateBest (best : Option RedditSearchResult) (r : RedditSearchResult) :
    Option RedditSearchResult :=
  match best with
  | none => some r
  | some b => if b.matchConfidence < r.matchConfidence then some r else some b

/-- The strategy loop of `findRedditPost`: stop on rate limit, return a
`user_not_found` failure immediately, short-circuit at confidence ≥ 0.8,
otherwise accumulate the best result. -/
def runStrategies :
    List Strategy → Option RedditSearchResult → SearchState →
      Awaited (Option RedditSearchResult) × SearchState
  | [], best, st => (.returned (finalDecision best), st)
  | f :: fs, best, st =>
    if isRateLimited st then (.returned (finalDecision best), st)
    else
      match f st with
      | (.thrown, st') => (.thrown, st')
      | (.returned (some r), st') =>
        if r.error == some "user_not_found" then (.returned (some r), st')
        else if 0.8 ≤ r.matchConfidence then (.returned (some r), st')
        else runStrategies fs (updateBest best r) st'
      | (.returned none, st') => runStrategies fs best st'

/-- `RedditSearch.findRedditPost`: the ordered strategy list from the source.
A strategy whose promise rejects rejects the whole resolution (`await fn()`
is not wrapped in any try/catch). -/
def findRedditPost (info : RedditPostInfo) (st : SearchState) :
    Awaited (Option RedditSearchResult) × SearchState :=
  runStrategies
    [fun s => searchByTitleInSubreddit info s,
     fun s => searchByAuthorInSubreddit info s,
     fun s => searchExactTitle info s,
     fun s => searchGlobal info s,
     fun s => searchUserComments info s] none st

/-! ## State-preservation lemmas for the fetch layer -/

theorem pacedState_preserves (st : SearchState) :
    (pacedState st).pending = st.pending ∧
    (pacedState st).tokenPending = st.tokenPending ∧
    (pacedState st).currentDelay = st.currentDelay ∧
    (pacedState st).rateLimitedUntil = st.rateLimitedUntil ∧
    (pacedState st).lastFetchStatus = st.lastFetchStatus ∧
    (pacedState st).hasCreds = st.hasCreds ∧
    (pacedState st).accessToken = st.accessToken ∧
    (pacedState st).tokenExpiresAt = st.tokenExpiresAt := by
  unfold pacedState
  split <;> simp

theorem getAccessToken_preserves (st : SearchState) :
    (getAccessToken st).2.pending = st.pending ∧
    (getAccessToken st).2.currentDelay = st.currentDelay ∧
    (getAccessToken st).2.rateLimitedUntil = st.rateLimitedUntil ∧
    (getAccessToken st).2.lastFetchStatus = st.lastFetchStatus ∧
    (getAccessToken st).2.now = st.now ∧
    (getAccessToken st).2.lastRequestTime = st.lastRequestTime := by
  unfold getAccessToken
  repeat' split
  all_goals simp

/-- On the non-cooldown path with a response available, `fetchReddit` is the
response handler applied to the paced, token-refreshed state. -/
theorem fetchReddit_cons (url : String) (st : SearchState) (outcome : FetchResult)
    (rest : List FetchResult) (hcool : ¬ st.now < st.rateLimitedUntil)
    (hp : st.pending = outcome :: rest) :
    fetchReddit url st =
      handleOutcome outcome
        { (getAccessToken (pacedState st)).2 with pending := rest } := by
  unfold fetchReddit
  rw [if_neg hcool]
  dsimp only
  have hp3 : ((getAccessToken (pacedState st)).2).pending = outcome :: rest := by
    rw [(getAccessToken_preserves _).1, (pacedState_preserves _).1, hp]
  rw [hp3]

/-! ## Claim theorems -/

/-- **C7**: `extractKeywords` is idempotent on its own output —
`extractKeywords(extractKeywords(x)) == extractKeywords(x)` for every input
string `x` — and returns `""` for text composed solely of stop-words
(e.g. `"the a it is"`). -/
theorem c7_extractKeywords_idempotent :
    (∀ x : String, extractKeywords (extractKeywords x) = extractKeywords x) ∧
      extractKeywords "the a it is" = "" :=
  ⟨extractKeywords_idem, by decide⟩

/-! ### Score-range lemmas (C3) -/

theorem compareTwoStrings_nonneg (a b : String) : 0 ≤ compareTwoStrings a b :=
  compareL_nonneg a.data b.data

theorem compareTwoStrings_le_one (a b : String) : compareTwoStrings a b ≤ 1 :=
  compareL_le_one a.data b.data

theorem titleTerm_nonneg (info : RedditPostInfo) (post : RedditPost) :
    0 ≤ titleTerm info post := by
  unfold titleTerm
  split
  · apply add_nonneg (mul_nonneg (compareTwoStrings_nonneg _ _) (by norm_num))
    split <;> norm_num
  · norm_num

theorem authorTerm_nonneg (info : RedditPostInfo) (post : RedditPost) :
    0 ≤ authorTerm info post := by
  unfold authorTerm
  split
  · exact mul_nonneg (compareTwoStrings_nonneg _ _) (by norm_num)
  · norm_num

theorem subredditTerm_nonneg (info : RedditPostInfo) (post : RedditPost) :
    0 ≤ subredditTerm info post := by
  unfold subredditTerm
  split
  · exact mul_nonneg (compareTwoStrings_nonneg _ _) (by norm_num)
  · norm_num

theorem bodyTerm_nonneg (info : RedditPostInfo) (post : RedditPost) :
    0 ≤ bodyTerm info post := by
  unfold bodyTerm
  split
  · split <;> norm_num
  · norm_num

theorem scorePost_nonneg (info : RedditPostInfo) (post : RedditPost) :
    0 ≤ scorePost info post :=
  add_nonneg (add_nonneg (add_nonneg (titleTerm_nonneg info post)
    (authorTerm_nonneg info post)) (subredditTerm_nonneg info post))
    (bodyTerm_nonneg info post)

theorem postResult_conf_bounds (post : RedditPost) (score : ℚ) (h : 0 ≤ score) :
    0 ≤ (postResult post score).matchConfidence ∧
      (postResult post score).matchConfidence ≤ 1 := by
  unfold postResult
  exact ⟨le_min h (by norm_num), min_le_right _ _⟩

theorem findBestMatchGo_conf (info : RedditPostInfo) :
    ∀ (ps : List RedditPost) (best : Option RedditSearchResult) (bs : ℚ),
      (∀ r, best = some r → 0 ≤ r.matchConfidence ∧ r.matchConfidence ≤ 1) →
      ∀ r, findBestMatchGo info ps best bs = some r →
        0 ≤ r.matchConfidence ∧ r.matchConfidence ≤ 1 := by
  intro ps
  induction ps with
  | nil => intro best bs hbest r h; exact hbest r h
  | cons p ps ih =>
    intro best bs hbest r h
    unfold findBestMatchGo at h
    split at h
    · refine ih _ _ ?_ r h
      intro r' hr'
      have := Option.some.inj hr'
      subst this
      exact postResult_conf_bounds p _ (scorePost_nonneg info p)
    · exact ih _ _ hbest r h

theorem commentScoreOf_nonneg (sk rs : String) (c : RedditComment) :
    0 ≤ commentScoreOf sk rs c := by
  unfold commentScoreOf
  exact le_trans (compareTwoStrings_nonneg _ _)
    (le_trans (le_max_left _ _) (le_max_left _ _))

theorem commentResult_conf_bounds (c : RedditComment) (score : ℚ) (h : 0 ≤ score) :
    0 ≤ (commentResult c score).matchConfidence ∧
      (commentResult c score).matchConfidence ≤ 1 := by
  unfold commentResult
  exact ⟨le_min (by linarith) (by norm_num), min_le_right _ _⟩

/-- Each step of the comment loop either keeps the accumulator or accepts a
comment whose raw score beats both the current best and the threshold. -/
theorem commentStep_out (threshold : ℚ) (sk rs : String)
    (acc : Option RedditSearchResult × ℚ) (child : CommentChild) :
    commentStep threshold sk rs acc child = acc ∨
    (acc.2 < commentScoreOf sk rs child.data ∧
      threshold < commentScoreOf sk rs child.data ∧
      commentStep threshold sk rs acc child =
        (some (commentResult child.data (commentScoreOf sk rs child.data)),
          commentScoreOf sk rs child.data)) := by
  unfold commentStep
  split
  · exact Or.inl rfl
  · split
    · exact Or.inl rfl
    · split
      · rename_i hcond
        exact Or.inr ⟨hcond.1, hcond.2, rfl⟩
      · exact Or.inl rfl

theorem commentFold_conf (threshold : ℚ) (sk rs : String) :
    ∀ (children : List CommentChild) (acc : Option RedditSearchResult × ℚ),
      (∀ r, acc.1 = some r → 0 ≤ r.matchConfidence ∧ r.matchConfidence ≤ 1) →
      ∀ r, (children.foldl (commentStep threshold sk rs) acc).1 = some r →
        0 ≤ r.matchConfidence ∧ r.matchConfidence ≤ 1 := by
  intro children
  induction children with
  | nil => intro acc hacc r h; exact hacc r h
  | cons child cs ih =>
    intro acc hacc r h
    rw [List.foldl_cons] at h
    refine ih _ ?_ r h
    rcases commentStep_out threshold sk rs acc child with heq | ⟨_, _, heq⟩
    · rw [heq]; exact hacc
    · rw [heq]
      intro r' hr'
      have := Option.some.inj hr'
      subst this
      exact commentResult_conf_bounds _ _ (commentScoreOf_nonneg sk rs child.data)

theorem searchUserComments_conf (info : RedditPostInfo) (st : SearchState)
    (r : RedditSearchResult)
    (h : (searchUserComments info st).1 = .returned (some r)) :
    0 ≤ r.matchConfidence ∧ r.matchConfidence ≤ 1 := by
  unfold searchUserComments at h
  split at h
  · simp at h
  · dsimp only at h
    rcases hp : fetchPagesGo (info.username.getD "") maxPages none [] st with ⟨aw, st'⟩
    rw [hp] at h
    cases aw with
    | thrown => simp at h
    | returned pr =>
      rcases pr with ⟨allComments, unf⟩
      dsimp only at h
      split at h
      · rw [Awaited.returned.injEq] at h
        have := Option.some.inj h
        subst this
        unfold userNotFoundResult
        norm_num
      · split at h
        · simp at h
        · rw [Awaited.returned.injEq] at h
          exact commentFold_conf _ _ _ allComments (none, 0)
            (by intro r' hr'; simp at hr') r h

/-- **C3**: for every query and every list of candidates, the scorer's output
confidence lies in `[0, 1]`: post confidences from `findBestMatch` are capped
at 1 and nonnegative, and so are comment confidences from
`searchUserComments`, even when every weighted sub-term is maxed and bonuses
stack. -/
theorem c3_scorer_range :
    (∀ (posts : List RedditPost) (info : RedditPostInfo) (r : RedditSearchResult),
        findBestMatch posts info = some r →
        0 ≤ r.matchConfidence ∧ r.matchConfidence ≤ 1) ∧
    (∀ (info : RedditPostInfo) (st : SearchState) (r : RedditSearchResult),
        (searchUserComments info st).1 = .returned (some r) →
        0 ≤ r.matchConfidence ∧ r.matchConfidence ≤ 1) := by
  constructor
  · intro posts info r h
    exact findBestMatchGo_conf info posts none 0 (by intro r' hr'; simp at hr') r h
  · exact searchUserComments_conf

/-! ### C8: placeholder usernames -/

/-- **C8**: for every candidate post and every query whose username equals,
case-insensitively, one of the placeholders `redacted`, `deleted`,
`[deleted]`, `unknown`, the author-similarity term contributes nothing: the
computed score equals the score of the same candidate with the author term
omitted (username `null` makes the author branch unreachable, and no other
term reads the username); moreover the user-comments strategy skips such a
username entirely. -/
theorem c8_placeholder_username_no_author_term :
    ∀ (info : RedditPostInfo) (post : RedditPost) (u : String),
      info.username = some u → lowerS u ∈ genericUsernames →
      scorePost info post = scorePost { info with username := none } post ∧
      ∀ st, searchUserComments info st = (.returned none, st) := by
  intro info post u hu hmem
  have hmem' : lowerS (info.username.getD "") ∈ genericUsernames := by
    rw [hu]
    exact hmem
  constructor
  · have ha1 : authorTerm info post = 0 := by
      unfold authorTerm
      simp [hmem']
    have ha2 : authorTerm { info with username := none } post = 0 := by
      unfold authorTerm
      simp [truthy]
    have ht : titleTerm { info with username := none } post = titleTerm info post := rfl
    have hs : subredditTerm { info with username := none } post =
        subredditTerm info post := rfl
    have hb : bodyTerm { info with username := none } post = bodyTerm info post := rfl
    unfold scorePost
    rw [ha1, ha2, ht, hs, hb]
  · intro st
    unfold searchUserComments
    rw [if_pos (by simp [hmem'])]

/-! ### C9: sanitized identifiers in outbound URLs -/

theorem nameAllowed_uriUnreserved {c : Char} (h : nameAllowed c = true) :
    uriUnreserved c = true := by
  unfold nameAllowed at h
  unfold uriUnreserved
  simp only [Bool.or_eq_true] at h ⊢
  tauto

theorem encodeURIComponentL_id :
    ∀ (l : List Char), (∀ c ∈ l, uriUnreserved c = true) → encodeURIComponentL l = l := by
  intro l
  induction l with
  | nil => intro _; rfl
  | cons c rest ih =>
    intro h
    unfold encodeURIComponentL
    simp only [List.flatMap_cons, h c (List.mem_cons_self _ _), if_true]
    have hrest : encodeURIComponentL rest = rest :=
      ih (fun c' hc' => h c' (List.mem_cons_of_mem _ hc'))
    unfold encodeURIComponentL at hrest
    rw [hrest]
    rfl

theorem sanitizeRedditName_spec (s : String) :
    (sanitizeRedditName s).data.length ≤ 25 ∧
      ∀ c ∈ (sanitizeRedditName s).data, nameAllowed c = true := by
  constructor
  · exact List.length_take_le _ _
  · intro c hc
    exact (List.mem_filter.mp (List.take_subset _ _ hc)).2

theorem encode_sanitize (s : String) :
    encodeURIComponent (sanitizeRedditName s) = sanitizeRedditName s := by
  unfold encodeURIComponent
  rw [encodeURIComponentL_id (sanitizeRedditName s).data
    (fun c hc => nameAllowed_uriUnreserved ((sanitizeRedditName_spec s).2 c hc))]

/-- **C9**: every outbound request URL that embeds a query's username or
subreddit embeds only the sanitized value — characters outside `[A-Za-z0-9_-]`
removed and the result truncated to at most 25 characters, for every input
string.  The URL equations exhibit the sanitized value verbatim
(`encodeURIComponent` is the identity on sanitizer output). -/
theorem c9_sanitized_urls :
    (∀ s : String, (sanitizeRedditName s).data.length ≤ 25 ∧
        ∀ c ∈ (sanitizeRedditName s).data, nameAllowed c = true) ∧
    (∀ s : String, encodeURIComponent (sanitizeRedditName s) = sanitizeRedditName s) ∧
    (∀ sub user : String, authorInSubredditUrl sub user =
        REDDIT_BASE ++ "/r/" ++ sanitizeRedditName sub ++ "/search.json?q=author:" ++
          sanitizeRedditName user ++ "&restrict_sr=on&sort=new&limit=25") ∧
    (∀ kw user : String, globalWithAuthorUrl kw user =
        REDDIT_BASE ++ "/search.json?q=" ++ encodeURIComponent kw ++ "+author:" ++
          sanitizeRedditName user ++ "&sort=relevance&limit=25") ∧
    (∀ sub kw : String, titleInSubredditUrl sub kw =
        REDDIT_BASE ++ "/r/" ++ sanitizeRedditName sub ++ "/search.json?q=" ++
          encodeURIComponent kw ++ "&restrict_sr=on&sort=relevance&limit=25") ∧
    (∀ (user : String) (after : Option String), userCommentsUrl user after =
        REDDIT_BASE ++ "/user/" ++ sanitizeRedditName user ++
          "/comments.json?sort=new&limit=100" ++
          (if truthy after then "&after=" ++ encodeURIComponent (after.getD "") else "")) := by
  refine ⟨sanitizeRedditName_spec, encode_sanitize, ?_, ?_, ?_, ?_⟩
  · intro sub user
    unfold authorInSubredditUrl
    rw [encode_sanitize user]
  · intro kw user
    unfold globalWithAuthorUrl
    rw [encode_sanitize user]
  · intro sub kw
    rfl
  · intro user after
    rfl

/-! ### C2: confidence floor and short-circuit threshold -/

theorem finalDecision_conf {best : Option RedditSearchResult} {r : RedditSearchResult}
    (h : finalDecision best = some r) : 0.4 ≤ r.matchConfidence := by
  rcases best with _ | b
  · simp [finalDecision] at h
  · dsimp only [finalDecision] at h
    by_cases hb : (0.4 : ℚ) ≤ b.matchConfidence
    · rw [if_pos hb] at h
      exact (Option.some.inj h) ▸ hb
    · rw [if_neg hb] at h
      exact Option.noConfusion h

theorem runStrategies_conf :
    ∀ (fs : List Strategy) (best : Option RedditSearchResult) (st : SearchState)
      (r : RedditSearchResult),
      (runStrategies fs best st).1 = .returned (some r) →
      r.error = some "user_not_found" ∨ 0.4 ≤ r.matchConfidence := by
  intro fs
  induction fs with
  | nil =>
    intro best st r h
    rw [show (runStrategies [] best st).1 = .returned (finalDecision best) from rfl,
      Awaited.returned.injEq] at h
    exact Or.inr (finalDecision_conf h)
  | cons f fs ih =>
    intro best st r h
    unfold runStrategies at h
    split at h
    · dsimp only at h
      rw [Awaited.returned.injEq] at h
      exact Or.inr (finalDecision_conf h)
    · rcases hf : f st with ⟨aw, st'⟩
      rw [hf] at h
      cases aw with
      | thrown => simp at h
      | returned res =>
        rcases res with _ | r'
        · exact ih _ _ r h
        · dsimp only at h
          split at h
          · rename_i hunf
            rw [Awaited.returned.injEq] at h
            have := Option.some.inj h
            subst this
            exact Or.inl (by simpa using hunf)
          · split at h
            · rename_i hconf
              rw [Awaited.returned.injEq] at h
              have := Option.some.inj h
              subst this
              exact Or.inr (by linarith)
            · exact ih _ _ r h

/-- **C2**: every non-failure result of `findRedditPost` has confidence at
least 0.4; a strategy result below 0.8 (and not a `user_not_found` failure)
never short-circuits the loop — it only updates the running best; and a best
result below 0.4 yields `null` (`NoMatch`). -/
theorem c2_confidence_floor_and_short_circuit :
    (∀ (info : RedditPostInfo) (st : SearchState) (r : RedditSearchResult),
        (findRedditPost info st).1 = .returned (some r) → r.error = none →
        0.4 ≤ r.matchConfidence) ∧
    (∀ (f : Strategy) (fs : List Strategy) (best : Option RedditSearchResult)
        (st : SearchState) (r : RedditSearchResult) (st' : SearchState),
        isRateLimited st = false → f st = (.returned (some r), st') →
        r.error ≠ some "user_not_found" → r.matchConfidence < 0.8 →
        runStrategies (f :: fs) best st = runStrategies fs (updateBest best r) st') ∧
    (∀ b : RedditSearchResult, b.matchConfidence < 0.4 →
        finalDecision (some b) = none) := by
  refine ⟨?_, ?_, ?_⟩
  · intro info st r h herr
    rcases runStrategies_conf _ none st r h with h' | h'
    · rw [herr] at h'
      exact absurd h' (by simp)
    · exact h'
  · intro f fs best st r st' hrl hf herr hconf
    have hbeq : (r.error == some "user_not_found") = false := by
      simp [herr]
    unfold runStrategies
    rw [hrl, hf]
    dsimp only
    rw [hbeq]
    simp only [Bool.false_eq_true, if_false]
    rw [if_neg (not_le.mpr hconf)]
    rw [← runStrategies.eq_def]
  · intro b hb
    dsimp only [finalDecision]
    rw [if_neg (not_le.mpr hb)]

/-! ### C1: behaviour when rate limited at the start -/

/-- The state of a fresh unauthenticated engine placed in rate-limit cooldown
(`rateLimitedUntil` one minute ahead of `now`) before any strategy has run,
with an environment that would otherwise satisfy every request. -/
def stateCooldown : SearchState :=
  { lastRequestTime := 0
    currentDelay := 6000
    rateLimitedUntil := 60000
    lastFetchStatus := 0
    hasCreds := false
    accessToken := false
    tokenExpiresAt := 0
    now := 0
    pending := [.response 200 (some (.searchListing []))]
    tokenPending := [] }

/-- A fully populated query. -/
def infoCats : RedditPostInfo :=
  { subreddit := some "cats"
    username := some "ghost123"
    title := some "hello world"
    bodySnippet := none }

/-- **C1** (the code against the claim): when the engine is rate limited at
the start, the strategy loop stops before running anything and falls through
to the final decision — but with no accumulated candidate `findRedditPost`
returns `null` (the plain no-match), never a result carrying
`error = "rate_limited"`; no such result is constructed anywhere in the
engine.  The second conjunct is the loop-level halt rule. -/
theorem c1_rate_limited_returns_null :
    (findRedditPost infoCats stateCooldown).1 = .returned none ∧
    (∀ (fs : List Strategy) (best : Option RedditSearchResult) (st : SearchState),
        isRateLimited st = true →
        runStrategies fs best st = (.returned (finalDecision best), st)) := by
  refine ⟨by decide, ?_⟩
  intro fs best st hrl
  cases fs with
  | nil => rfl
  | cons f fs =>
    unfold runStrategies
    rw [hrl]
    simp

/-! ### C4: expected failure modes -/

/-- Environment: a 200 whose body is not valid JSON. -/
def envMalformed : SearchState :=
  { lastRequestTime := 0
    currentDelay := 6000
    rateLimitedUntil := 0
    lastFetchStatus := 0
    hasCreds := false
    accessToken := false
    tokenExpiresAt := 0
    now := 0
    pending := [.response 200 none]
    tokenPending := [] }

/-- **C4** (the code against the claim): `fetchReddit` does return `null`
with a status classification on network error and on every non-ok HTTP
status — but not on malformed JSON.  A 2xx response whose body fails to
parse rejects the promise of the un-awaited `return response.json()` past
`fetchReddit`'s catch clause (which never runs: `lastFetchStatus` keeps the
2xx status instead of the catch's 0), the rejection propagates through the
awaiting strategy and the driver loop, and the resolution throws instead of
completing with a `ResolutionResult`.  The last conjunct evaluates the
engine at the failing input: query `infoCats` against an HTTP 200 answer
with an unparsable body. -/
theorem c4_malformed_json_throws :
    (∀ (url : String) (st : SearchState) (rest : List FetchResult),
        ¬ st.now < st.rateLimitedUntil → st.pending = .networkError :: rest →
        (fetchReddit url st).1 = .returned none ∧
          (fetchReddit url st).2.lastFetchStatus = 0) ∧
    (∀ (url : String) (st : SearchState) (s : Nat) (b : Option JsonBody)
        (rest : List FetchResult),
        ¬ st.now < st.rateLimitedUntil → st.pending = .response s b :: rest →
        ¬(200 ≤ s ∧ s < 300) → s ≠ 429 →
        (fetchReddit url st).1 = .returned none ∧
          (fetchReddit url st).2.lastFetchStatus = s) ∧
    (∀ (url : String) (st : SearchState) (b : Option JsonBody) (rest : List FetchResult),
        ¬ st.now < st.rateLimitedUntil → st.pending = .response 429 b :: rest →
        (fetchReddit url st).1 = .returned none) ∧
    (∀ (url : String) (st : SearchState) (s : Nat) (rest : List FetchResult),
        ¬ st.now < st.rateLimitedUntil → st.pending = .response s none :: rest →
        200 ≤ s → s < 300 →
        (fetchReddit url st).1 = .thrown ∧
          (fetchReddit url st).2.lastFetchStatus = s) ∧
    (∀ (f : Strategy) (fs : List Strategy) (best : Option RedditSearchResult)
        (st st' : SearchState),
        isRateLimited st = false → f st = (.thrown, st') →
        runStrategies (f :: fs) best st = (.thrown, st')) ∧
    (findRedditPost infoCats envMalformed).1 = .thrown := by
  refine ⟨?_, ?_, ?_, ?_, ?_, by with_unfolding_all decide⟩
  · intro url st rest hcool hp
    rw [fetchReddit_cons url st _ rest hcool hp]
    exact ⟨rfl, rfl⟩
  · intro url st s b rest hcool hp hnotok h429
    rw [fetchReddit_cons url st _ rest hcool hp]
    unfold handleOutcome
    dsimp only
    rw [if_neg h429]
    have hdec : decide (200 ≤ s ∧ s < 300) = false := decide_eq_false hnotok
    rw [hdec]
    simp only [Bool.not_false, if_true]
    split <;> refine ⟨trivial, ?_⟩ <;> split <;> rfl
  · intro url st b rest hcool hp
    rw [fetchReddit_cons url st _ rest hcool hp]
    unfold handleOutcome
    dsimp only
    rw [if_pos rfl]
  · intro url st s rest hcool hp h200 h300
    rw [fetchReddit_cons url st _ rest hcool hp]
    unfold handleOutcome
    dsimp only
    rw [if_neg (by omega : s ≠ 429)]
    have hdec : decide (200 ≤ s ∧ s < 300) = true := decide_eq_true ⟨h200, h300⟩
    rw [hdec]
    simp only [Bool.not_true, Bool.false_eq_true, if_false]
    split <;> refine ⟨trivial, ?_⟩ <;> split <;> rfl
  · intro f fs best st st' hrl hf
    unfold runStrategies
    rw [hrl, hf]
    simp

/-! ### C5: 404 on the user listing terminates the resolution -/

theorem fetchPagesGo_notFound (username : String) (fuel : Nat) (after : Option String)
    (acc : List CommentChild) (st : SearchState)
    (hrl : isRateLimited st = false)
    (hfetch : (fetchReddit (userCommentsUrl username after) st).1 = .returned none)
    (h404 : wasNotFound (fetchReddit (userCommentsUrl username after) st).2 = true) :
    fetchPagesGo username (fuel + 1) after acc st =
      (.returned (acc, true), (fetchReddit (userCommentsUrl username after) st).2) := by
  unfold fetchPagesGo
  rw [hrl]
  simp only [Bool.false_eq_true, if_false]
  rcases hf : fetchReddit (userCommentsUrl username after) st with ⟨res, st2⟩
  rw [hf] at hfetch h404
  dsimp only at hfetch h404
  subst hfetch
  dsimp only
  rw [if_pos h404]

/-- **C5**: if the user-comment-history strategy observes HTTP 404 on the
user's comment listing (first page), the strategy returns the
`user_not_found` failure with the state exactly as it was after that one
fetch (so no further network request is consumed), and the driver loop
returns a `user_not_found` result immediately, running no later strategy —
the result is never the plain `NoMatch` (`null`). -/
theorem c5_user_not_found_terminates :
    (∀ (info : RedditPostInfo) (st : SearchState),
        truthy info.username = true →
        lowerS (info.username.getD "") ∉ genericUsernames →
        isRateLimited st = false →
        (fetchReddit (userCommentsUrl (info.username.getD "") none) st).1 = .returned none →
        wasNotFound (fetchReddit (userCommentsUrl (info.username.getD "") none) st).2 = true →
        searchUserComments info st =
          (.returned (some (userNotFoundResult (info.username.getD ""))),
            (fetchReddit (userCommentsUrl (info.username.getD "") none) st).2)) ∧
    (∀ (f : Strategy) (fs : List Strategy) (best : Option RedditSearchResult)
        (st st' : SearchState) (r : RedditSearchResult),
        isRateLimited st = false → f st = (.returned (some r), st') →
        r.error = some "user_not_found" →
        runStrategies (f :: fs) best st = (.returned (some r), st')) := by
  constructor
  · intro info st huser hgen hrl hfetch h404
    unfold searchUserComments
    rw [if_neg (by simp [huser, hgen])]
    dsimp only
    rw [show maxPages = 4 + 1 from rfl,
      fetchPagesGo_notFound _ 4 none [] st hrl hfetch h404]
    simp
  · intro f fs best st st' r hrl hf herr
    unfold runStrategies
    rw [hrl, hf]
    dsimp only
    rw [herr]
    simp

/-! ### C6: 429 backoff and pre-emptive cooldown -/

/-- **C6**: on HTTP 429 `fetchReddit` doubles `currentDelay` (capped at
60000 ms), sets `rateLimitedUntil` to `now + 60000` ms, records status 429
and returns `null` (the response was consumed); and any call attempted while
`now < rateLimitedUntil` returns `null` immediately with status 429 and the
state otherwise untouched — in particular `pending` is not consumed, i.e. no
network round trip happens. -/
theorem c6_backoff_and_cooldown :
    (∀ (url : String) (st : SearchState), st.now < st.rateLimitedUntil →
        fetchReddit url st = (.returned none, { st with lastFetchStatus := 429 })) ∧
    (∀ (url : String) (st : SearchState) (b : Option JsonBody) (rest : List FetchResult),
        ¬ st.now < st.rateLimitedUntil → st.pending = .response 429 b :: rest →
        (fetchReddit url st).1 = .returned none ∧
        (fetchReddit url st).2.currentDelay = min (st.currentDelay * 2) 60000 ∧
        (fetchReddit url st).2.rateLimitedUntil = (fetchReddit url st).2.now + 60000 ∧
        (fetchReddit url st).2.lastFetchStatus = 429 ∧
        (fetchReddit url st).2.pending = rest) := by
  constructor
  · intro url st h
    unfold fetchReddit
    rw [if_pos h]
  · intro url st b rest hcool hp
    rw [fetchReddit_cons url st _ rest hcool hp]
    unfold handleOutcome
    dsimp only
    rw [if_pos rfl]
    refine ⟨rfl, ?_, rfl, rfl, rfl⟩
    show min (({ (getAccessToken (pacedState st)).2 with
        pending := rest } : SearchState).currentDelay * 2) 60000 =
      min (st.currentDelay * 2) 60000
    have h1 : ({ (getAccessToken (pacedState st)).2 with
        pending := rest } : SearchState).currentDelay =
        (getAccessToken (pacedState st)).2.currentDelay := rfl
    rw [h1, (getAccessToken_preserves _).2.1, (pacedState_preserves _).2.2.1]

/-! ### C10: the hidden acceptance threshold of the comment scan -/

theorem commentResult_conf_gt {threshold score : ℚ} (c : RedditComment)
    (hthr : threshold + 0.2 < 1) (hs : threshold < score) :
    threshold + 0.2 < (commentResult c score).matchConfidence := by
  unfold commentResult
  show threshold + 0.2 < min (score + 0.2) 1
  rcases le_total (score + 0.2) 1 with h | h
  · rw [min_eq_left h]
    linarith
  · rw [min_eq_right h]
    exact hthr

theorem commentFold_threshold (threshold : ℚ) (sk rs : String)
    (hthr : threshold + 0.2 < 1) :
    ∀ (children : List CommentChild) (acc : Option RedditSearchResult × ℚ),
      (∀ r, acc.1 = some r → threshold + 0.2 < r.matchConfidence) →
      ∀ r, (children.foldl (commentStep threshold sk rs) acc).1 = some r →
        threshold + 0.2 < r.matchConfidence := by
  intro children
  induction children with
  | nil => intro acc hacc r h; exact hacc r h
  | cons child cs ih =>
    intro acc hacc r h
    rw [List.foldl_cons] at h
    refine ih _ ?_ r h
    rcases commentStep_out threshold sk rs acc child with heq | ⟨_, hth, heq⟩
    · rw [heq]; exact hacc
    · rw [heq]
      intro r' hr'
      have := Option.some.inj hr'
      subst this
      exact commentResult_conf_gt _ hthr hth

/-- **C10**: the comment scan accepts a candidate only when its raw score
strictly exceeds the length-dependent threshold (0.2 below 80 normalized
characters, 0.3 from 80 on), so every comment result `searchUserComments`
returns has `matchConfidence` strictly above 0.4 — strictly above 0.5 when
the normalized snippet has at least 80 characters. -/
theorem c10_comment_threshold :
    (∀ (threshold : ℚ) (sk rs : String) (acc : Option RedditSearchResult × ℚ)
        (child : CommentChild),
        commentStep threshold sk rs acc child ≠ acc →
        threshold < commentScoreOf sk rs child.data ∧
          acc.2 < commentScoreOf sk rs child.data ∧
          commentStep threshold sk rs acc child =
            (some (commentResult child.data (commentScoreOf sk rs child.data)),
              commentScoreOf sk rs child.data)) ∧
    (∀ (info : RedditPostInfo) (st : SearchState) (r : RedditSearchResult),
        (searchUserComments info st).1 = .returned (some r) → r.isComment = true →
        0.4 < r.matchConfidence ∧
          (80 ≤ (rawSnippetOf info).length → 0.5 < r.matchConfidence)) := by
  constructor
  · intro threshold sk rs acc child hne
    rcases commentStep_out threshold sk rs acc child with heq | ⟨hbs, hth, heq⟩
    · exact absurd heq hne
    · exact ⟨hth, hbs, heq⟩
  · intro info st r h hic
    unfold searchUserComments at h
    split at h
    · simp at h
    · dsimp only at h
      rcases hp : fetchPagesGo (info.username.getD "") maxPages none [] st with ⟨aw, st'⟩
      rw [hp] at h
      cases aw with
      | thrown => simp at h
      | returned pr =>
       rcases pr with ⟨allComments, unf⟩
       dsimp only at h
       split at h
       · rw [Awaited.returned.injEq] at h
         have := Option.some.inj h
         subst this
         simp [userNotFoundResult] at hic
       · split at h
         · simp at h
         · rw [Awaited.returned.injEq] at h
           have hthr : commentThreshold info + 0.2 < 1 := by
            unfold commentThreshold
            split <;> norm_num
           have hgt : commentThreshold info + 0.2 < r.matchConfidence :=
             commentFold_threshold (commentThreshold info) _ _ hthr allComments (none, 0)
               (by intro r' hr'; simp at hr') r h
           rcases lt_or_ge (rawSnippetOf info).length 80 with hl | hl
           · have hteq : commentThreshold info = 0.2 := by
               unfold commentThreshold
               rw [if_pos hl]
             rw [hteq] at hgt
             constructor
             · linarith
             · intro h80
               omega
           · have hteq : commentThreshold info = 0.3 := by
               unfold commentThreshold
               rw [if_neg (by omega)]
             rw [hteq] at hgt
             constructor
             · linarith
             · intro _
               linarith

/-! ## Concrete fixtures for the witnesses -/

/-- A fresh unauthenticated engine state with an empty environment. -/
def stateIdle : SearchState :=
  { lastRequestTime := 0
    currentDelay := 6000
    rateLimitedUntil := 0
    lastFetchStatus := 0
    hasCreds := false
    accessToken := false
    tokenExpiresAt := 0
    now := 0
    pending := []
    tokenPending := [] }

def postHello : RedditPost :=
  { id := "p1"
    title := "hello world"
    author := "alice"
    subreddit := "cats"
    permalink := "/r/cats/comments/p1/hello_world/"
    selftext := none
    created_utc := 0 }

/-- Environment: one search response carrying a perfectly matching post. -/
def envSearchHit : SearchState :=
  { stateIdle with pending := [.response 200 (some (.searchListing [⟨"t3", postHello⟩]))] }

/-- The result `findRedditPost infoCats envSearchHit` computes
(title 0.6 + exact bonus 0.15 + subreddit 0.2). -/
def resultHello : RedditSearchResult :=
  { url := "https://www.reddit.com/r/cats/comments/p1/hello_world/"
    title := "hello world"
    author := "alice"
    subreddit := "cats"
    matchConfidence := 19/20 }

def resultHalf : RedditSearchResult :=
  { url := "u", title := "t", author := "a", subreddit := "s", matchConfidence := 1/2 }

def resultLow : RedditSearchResult :=
  { url := "u", title := "t", author := "a", subreddit := "s", matchConfidence := 3/10 }

def infoGhost : RedditPostInfo :=
  { subreddit := none
    username := some "ghost123"
    title := none
    bodySnippet := some "this is my very specific comment text that is quite long indeed" }

def commentLong : RedditComment :=
  { id := "c1"
    body := "this is my very specific comment text that is quite long indeed"
    author := "ghost123"
    subreddit := "test"
    permalink := "/r/test/comments/x/c1/"
    link_title := "some post"
    created_utc := 0 }

/-- Environment: one comment-listing page containing a verbatim match. -/
def envComments : SearchState :=
  { stateIdle with
    pending := [.response 200 (some (.commentListing [⟨"t1", commentLong⟩] none))] }

def resultComment : RedditSearchResult :=
  { url := "https://www.reddit.com/r/test/comments/x/c1/?context=3"
    title := "Comment on: some post"
    author := "ghost123"
    subreddit := "test"
    matchConfidence := 1
    isComment := true }

/-- Environment: the user's comment listing answers 404. -/
def env404 : SearchState := { stateIdle with pending := [.response 404 none] }

/-- Environment: the network fails outright. -/
def stNet : SearchState := { stateIdle with pending := [.networkError] }

/-- Environment: an HTTP 500. -/
def stErr : SearchState := { stateIdle with pending := [.response 500 none] }

/-- Environment: an HTTP 429. -/
def st429 : SearchState := { stateIdle with pending := [.response 429 none] }

def infoRedacted : RedditPostInfo :=
  { subreddit := some "cats"
    username := some "Redacted"
    title := some "hello world"
    bodySnippet := none }

/-! ## Witnesses -/

theorem c1_witness :
    runStrategies [] none stateCooldown = (.returned (finalDecision none), stateCooldown) :=
  c1_rate_limited_returns_null.2 [] none stateCooldown (by with_unfolding_all decide)

theorem c2_witness :
    (0.4 : ℚ) ≤ resultHello.matchConfidence ∧
    runStrategies [fun s => (.returned (some resultHalf), s)] none stateIdle =
      runStrategies [] (updateBest none resultHalf) stateIdle ∧
    finalDecision (some resultLow) = none :=
  ⟨c2_confidence_floor_and_short_circuit.1 infoCats envSearchHit resultHello
      (by with_unfolding_all decide) rfl,
    c2_confidence_floor_and_short_circuit.2.1 (fun s => (.returned (some resultHalf), s)) [] none
      stateIdle resultHalf stateIdle (by with_unfolding_all decide) rfl (by with_unfolding_all decide) (by with_unfolding_all decide),
    c2_confidence_floor_and_short_circuit.2.2 resultLow (by with_unfolding_all decide)⟩

theorem c3_witness :
    (0 ≤ resultHello.matchConfidence ∧ resultHello.matchConfidence ≤ 1) ∧
    (0 ≤ resultComment.matchConfidence ∧ resultComment.matchConfidence ≤ 1) :=
  ⟨c3_scorer_range.1 [postHello] infoCats resultHello (by with_unfolding_all decide),
    c3_scorer_range.2 infoGhost envComments resultComment (by with_unfolding_all decide)⟩

theorem c4_witness :
    ((fetchReddit "" stNet).1 = .returned none ∧
      (fetchReddit "" stNet).2.lastFetchStatus = 0) ∧
    ((fetchReddit "" stErr).1 = .returned none ∧
      (fetchReddit "" stErr).2.lastFetchStatus = 500) ∧
    (fetchReddit "" st429).1 = .returned none ∧
    ((fetchReddit "" envMalformed).1 = .thrown ∧
      (fetchReddit "" envMalformed).2.lastFetchStatus = 200) ∧
    runStrategies [fun s => (.thrown, s)] none stateIdle = (.thrown, stateIdle) :=
  ⟨c4_malformed_json_throws.1 "" stNet [] (by with_unfolding_all decide) rfl,
    c4_malformed_json_throws.2.1 "" stErr 500 none [] (by with_unfolding_all decide) rfl
      (by with_unfolding_all decide) (by with_unfolding_all decide),
    c4_malformed_json_throws.2.2.1 "" st429 none [] (by with_unfolding_all decide) rfl,
    c4_malformed_json_throws.2.2.2.1 "" envMalformed 200 [] (by with_unfolding_all decide)
      rfl (by with_unfolding_all decide) (by with_unfolding_all decide),
    c4_malformed_json_throws.2.2.2.2.1 (fun s => (.thrown, s)) [] none stateIdle stateIdle
      (by with_unfolding_all decide) rfl⟩

theorem c5_witness :
    searchUserComments infoGhost env404 =
      (.returned (some (userNotFoundResult (infoGhost.username.getD ""))),
        (fetchReddit (userCommentsUrl (infoGhost.username.getD "") none) env404).2) ∧
    runStrategies [fun s => (.returned (some (userNotFoundResult "ghost123")), s)]
        none stateIdle =
      (.returned (some (userNotFoundResult "ghost123")), stateIdle) :=
  ⟨c5_user_not_found_terminates.1 infoGhost env404 (by with_unfolding_all decide)
      (by with_unfolding_all decide) (by with_unfolding_all decide)
      (by with_unfolding_all decide) (by with_unfolding_all decide),
    c5_user_not_found_terminates.2
      (fun s => (.returned (some (userNotFoundResult "ghost123")), s))
      [] none stateIdle stateIdle (userNotFoundResult "ghost123")
      (by with_unfolding_all decide) rfl rfl⟩

theorem c6_witness :
    fetchReddit "" stateCooldown =
      (.returned none, { stateCooldown with lastFetchStatus := 429 }) ∧
    ((fetchReddit "" st429).1 = .returned none ∧
      (fetchReddit "" st429).2.currentDelay = min (st429.currentDelay * 2) 60000 ∧
      (fetchReddit "" st429).2.rateLimitedUntil = (fetchReddit "" st429).2.now + 60000 ∧
      (fetchReddit "" st429).2.lastFetchStatus = 429 ∧
      (fetchReddit "" st429).2.pending = []) :=
  ⟨c6_backoff_and_cooldown.1 "" stateCooldown (by with_unfolding_all decide),
    c6_backoff_and_cooldown.2 "" st429 none [] (by with_unfolding_all decide) rfl⟩

theorem c8_witness :
    scorePost infoRedacted postHello =
      scorePost { infoRedacted with username := none } postHello ∧
    ∀ st, searchUserComments infoRedacted st = (.returned none, st) :=
  c8_placeholder_username_no_author_term infoRedacted postHello "Redacted" rfl
    (by with_unfolding_all decide)

theorem c9_witness :
    nameAllowed 'a' = true ∧
    encodeURIComponent (sanitizeRedditName "a/../b?x=1") = sanitizeRedditName "a/../b?x=1" :=
  ⟨(c9_sanitized_urls.1 "a/../b?x=1").2 'a' (by with_unfolding_all decide),
    c9_sanitized_urls.2.1 "a/../b?x=1"⟩

theorem c10_witness :
    ((0.2 : ℚ) < commentScoreOf
        (extractKeywords (orEmpty infoGhost.title ++ " " ++ orEmpty infoGhost.bodySnippet))
        (rawSnippetOf infoGhost) commentLong ∧
      (0 : ℚ) < commentScoreOf
        (extractKeywords (orEmpty infoGhost.title ++ " " ++ orEmpty infoGhost.bodySnippet))
        (rawSnippetOf infoGhost) commentLong ∧
      commentStep 0.2
          (extractKeywords (orEmpty infoGhost.title ++ " " ++ orEmpty infoGhost.bodySnippet))
          (rawSnippetOf infoGhost) (none, 0) ⟨"t1", commentLong⟩ =
        (some (commentResult commentLong
            (commentScoreOf
              (extractKeywords (orEmpty infoGhost.title ++ " " ++ orEmpty infoGhost.bodySnippet))
              (rawSnippetOf infoGhost) commentLong)),
          commentScoreOf
            (extractKeywords (orEmpty infoGhost.title ++ " " ++ orEmpty infoGhost.bodySnippet))
            (rawSnippetOf infoGhost) commentLong)) ∧
    (0.4 < resultComment.matchConfidence ∧
      (80 ≤ (rawSnippetOf infoGhost).length → 0.5 < resultComment.matchConfidence)) :=
  ⟨c10_comment_threshold.1 0.2
      (extractKeywords (orEmpty infoGhost.title ++ " " ++ orEmpty infoGhost.bodySnippet))
      (rawSnippetOf infoGhost) (none, 0) ⟨"t1", commentLong⟩ (by with_unfolding_all decide),
    c10_comment_threshold.2 infoGhost envComments resultComment (by with_unfolding_all decide) rfl⟩
